import Mathlib

/-!
Verification of the evaluation engine of the `eval` expression-evaluator
repository, against its natural-language specification.

The repository contains two historical variants of the same engine:
  * `src/engine.go` — per-node data lives in boxed node records (`node`),
  * `src/unnamed/part_000` — per-node data lives in a flat integer bytecode.

This file gives a shallow embedding of both variants: the runtime value
model and type unifier (`unifyType`), the boxed-record VM (`stepB`/`runB`,
embedding `Expr.Eval` of `src/engine.go`), and the flat-bytecode VM
(`stepF`/`runF`, embedding `Expr.Eval` of `src/unnamed/part_000`), together
with a translation `toFlat` between the two program encodings.

Modelling conventions:
  * Go machine integers are modelled as `Int` (or `Nat` for the unsigned
    payloads of `Value`); the only conversion in the engine where Go
    overflow semantics matter is `int64(uint64)`, modelled explicitly by
    `uint64ToInt64`.
  * The two working stacks are modelled as total maps `Int → _` with
    explicit top indices, exactly as the Go code uses preallocated slices
    with top indices.  The preallocation size switch in both sources
    (`size <= 8`, `size <= 16`, ...) only controls allocation and has no
    semantic content, so it is not reflected in the model.
  * Go bit operations on the non-negative flag words are modelled with
    `%` and `/` by powers of two (`flag & 0b111 = flag % 8`,
    `flag >> 8 = flag / 256`, and the single-bit mask tests in `scFires`).
  * The evaluation loop is given fuel; `Outcome.fuelOut` marks fuel
    exhaustion and never arises on the concrete programs considered here.
  * A failed Go type assertion (`n.value.(string)` in `getSelectorValue`)
    is a runtime panic, modelled by `Outcome.panicked`.
  * `fmt.Printf` tracing in the debug branch is I/O and is dropped; the
    stack mutations of that branch are kept.
  * Every call to `ctx.Get` and every operator invocation is recorded in
    an event trace, so that laziness properties ("this operator is never
    invoked") are statements about the trace.
-/

namespace EvalSpec

/-- `SelectorKey` (`int16` in the source). -/
abbrev SelectorKey := Int

/-- The runtime value model (`Value = interface{}` in the source).  The
constructors list the kinds that the engine inspects: the canonical kinds
(`bool`, `string`, `int64`, `[]int64`, `[]string`), the kinds converted by
`unifyType` (`int`, `time.Time`, `time.Duration`, `[]int`, `int32`,
`int16`, `int8`, `uint64`, `uint32`, `uint16`, `uint8`), the untyped `nil`
interface value, and an opaque constructor for every other kind (which the
engine passes through untouched). A `time.Time` is a pair of a Unix second
count and a nanosecond offset; a `time.Duration` is a nanosecond count. -/
inductive Value where
  | vnil
  | vbool (b : Bool)
  | vstr (s : String)
  | vint64 (x : Int)
  | vint64s (xs : List Int)
  | vstrs (xs : List String)
  | vint (x : Int)
  | vint32 (x : Int)
  | vint16 (x : Int)
  | vint8 (x : Int)
  | vuint64 (n : Nat)
  | vuint32 (n : Nat)
  | vuint16 (n : Nat)
  | vuint8 (n : Nat)
  | vints (xs : List Int)
  | vtime (sec : Int) (nsec : Int)
  | vdur (ns : Int)
  | vother (tag : String)
  deriving DecidableEq, Repr, Inhabited

/-- Go's `int64(v)` for `v : uint64`: two's-complement reinterpretation.
Values below `2^63` are preserved; larger values wrap by `2^64`. -/
def uint64ToInt64 (n : Nat) : Int :=
  if n < 2 ^ 63 then (n : Int) else (n : Int) - 2 ^ 64

/-- `time.Second` in nanoseconds. -/
def durSecond : Int := 1000000000

/-- The canonical-kind test of `getSelectorValue`
(`case bool, string, int64, []int64, []string`). -/
def isCanonical : Value → Bool
  | .vbool _ => true
  | .vstr _ => true
  | .vint64 _ => true
  | .vint64s _ => true
  | .vstrs _ => true
  | _ => false

/-- `unifyType` (identical in both source variants).  `time.Time` becomes
its Unix second count (`v.Unix()`); `time.Duration` becomes whole seconds
(`int64(v / time.Second)`, Go division truncating toward zero, modelled by
`Int.tdiv`); `[]int` is widened elementwise; the narrower integer kinds are
widened to `int64` (exact, since Go widening conversions preserve every
representable value), except `uint64`, whose Go conversion to `int64`
reinterprets the bits (`uint64ToInt64`).  Every other kind is returned
unchanged. -/
def unifyType : Value → Value
  | .vint x => .vint64 x
  | .vtime sec _nsec => .vint64 sec
  | .vdur ns => .vint64 (Int.tdiv ns durSecond)
  | .vints xs => .vint64s (xs.map (fun iv => iv))
  | .vint32 x => .vint64 x
  | .vint16 x => .vint64 x
  | .vint8 x => .vint64 x
  | .vuint64 n => .vint64 (uint64ToInt64 n)
  | .vuint32 n => .vint64 (n : Int)
  | .vuint16 n => .vint64 (n : Int)
  | .vuint8 n => .vint64 (n : Int)
  | v => v

/-! ### The engine: shared parts of the two variants -/

/-- Errors produced or propagated by the engine.  `external` stands for an
arbitrary error created outside the engine (by a context or an operator);
`opExecV` is the boxed variant's operator-failure wrapper
(`fmt.Errorf("operator execution error, operator: %v, error: %w",
curt.value, err)`), identifying the operator by the node's stored value;
`opExecI` is the flat variant's wrapper, which formats the node index
instead (`curt` is an `int` there); `condNotBool` is the conditional
predicate type-mismatch error; `invalidResultType` is `EvalBool`'s
non-boolean-result error. -/
inductive GoErr where
  | external (msg : String)
  | opExecV (opName : Value) (inner : GoErr)
  | opExecI (nodeIdx : Int) (inner : GoErr)
  | condNotBool (got : Value)
  | invalidResultType (got : Value)
  deriving DecidableEq, Repr

/-- `errors.Unwrap` on the engine's errors: only the two operator-failure
wrappers (built with `%w`) wrap an inner error. -/
def errInner : GoErr → Option GoErr
  | .opExecV _ e => some e
  | .opExecI _ e => some e
  | _ => none

/-- The result of one evaluation.  `panicked` models a Go runtime panic
(the failed `n.value.(string)` type assertion); `fuelOut` marks exhaustion
of the fuel given to the modelled loop. -/
inductive Outcome where
  | ok (v : Value)
  | err (e : GoErr)
  | panicked
  | fuelOut
  deriving DecidableEq, Repr

/-- The evaluation context (`Ctx` in the source): the pluggable `Selector`
(its `Get` method) plus the cancellation state of the carried
`context.Context`. -/
structure Ctx where
  get : SelectorKey → String → Except GoErr Value
  cancelled : Bool

/-- `Operator`: `func(ctx *Ctx, params []Value) (res Value, err error)`. -/
abbrev Operator := Ctx → List Value → Except GoErr Value

/-- A boxed node record (`node` in `src/engine.go`).  `flag` packs the
3-bit node type and the two short-circuit bits; it is a `uint8`, so all
flags are non-negative and below 256. -/
structure Node where
  flag : Int
  childCnt : Int
  scIdx : Int
  childIdx : Int
  selKey : SelectorKey
  value : Value
  op : Operator

instance : Inhabited Node :=
  ⟨⟨0, 0, 0, 0, 0, .vnil, fun _ _ => .ok .vnil⟩⟩

/-- Node-type constants (the `nodeTypeMask`-masked values). -/
def constantT : Int := 1
def selectorT : Int := 2
def operatorT : Int := 3
def fastOperatorT : Int := 4
def condT : Int := 5
def endT : Int := 6
def debugT : Int := 7

/-- `flag & nodeTypeMask` for the non-negative flag words of the engine. -/
def nodeType (flag : Int) : Int := flag % 8

/-- The short-circuit test of both variants:
`(!b && flag&scIfFalse == scIfFalse) || (b && flag&scIfTrue == scIfTrue)`,
with the single-bit masks `scIfFalse = 0b01000` and `scIfTrue = 0b10000`
read off a non-negative flag word by division. -/
def scFires (flag : Int) (b : Bool) : Bool :=
  (!b && (flag / 8) % 2 == 1) || (b && (flag / 16) % 2 == 1)

/-- Pointwise update of a total map, modelling `a[i] = x`. -/
def setF {α : Type} (f : Int → α) (i : Int) (x : α) : Int → α :=
  fun j => if j = i then x else f j

/-- The VM working state: the stack frame `sf` and the operand stack `os`
(total maps plus explicit top indices, mirroring the preallocated Go
slices), the visit watermark `maxIdx`, and the diagnostic flag
`scTriggered`. -/
structure VMState where
  sf : Int → Int
  sfTop : Int
  os : Int → Value
  osTop : Int
  maxIdx : Int
  scTriggered : Bool

/-- The initial VM state of both variants: zeroed stacks with the root
index `0` as the only stack-frame entry (`sfTop = 0` over a zeroed `sf`),
an empty operand stack, and `maxIdx = -1`. -/
def initState : VMState :=
  { sf := fun _ => 0
    sfTop := 0
    os := fun _ => Value.vnil
    osTop := -1
    maxIdx := -1
    scTriggered := false }

/-- Observable actions of one evaluation: each `ctx.Get` call (with the
key and name actually passed) and each operator invocation (by node
index). -/
inductive Event where
  | getCall (key : SelectorKey) (name : String)
  | opCall (nodeIdx : Int)
  deriving DecidableEq, Repr

/-- Result of the short-circuit loop shared by both variants:
`ret res` models `return res, nil` (the target chain reached `0`);
`stop s i` exits the loop at node `i` with rewound state `s`, after which
the VM pushes the result onto the operand stack. -/
inductive ScOut where
  | ret (v : Value)
  | stop (s : VMState) (idx : Int)
  | fuelOut

/-- The short-circuit loop of both variants (identical in the two
sources), parameterized by the per-node accessors for the flag word, the
short-circuit target, and the two precomputed rewind tables.  While the
flags of the current node fire on the boolean result: jump to the target
(`return res` if it is `0`), rewinding `sfTop` to `sfSize[target] - 2` and
`osTop` to `osSize[target] - 1` and advancing `maxIdx` to the target. -/
def scResolve (flagOf targetOf sfSize osSize : Int → Int) (b : Bool) :
    VMState → Int → Nat → ScOut
  | _, _, 0 => .fuelOut
  | s, curtIdx, fuel + 1 =>
    if scFires (flagOf curtIdx) b then
      let t := targetOf curtIdx
      if t = 0 then .ret (.vbool b)
      else
        scResolve flagOf targetOf sfSize osSize b
          { s with maxIdx := t, sfTop := sfSize t - 2, osTop := osSize t - 1,
                   scTriggered := true } t fuel
    else .stop s curtIdx

/-- One step of the VM, after a node's dispatch has produced result `res`:
the short-circuit check followed by pushing `res` onto the operand
stack. -/
def scPush (flagOf targetOf sfSize osSize : Int → Int) (res : Value)
    (curtIdx : Int) (s : VMState) (fuel : Nat) : Option VMState ⊕ Value :=
  match res with
  | .vbool b =>
    match scResolve flagOf targetOf sfSize osSize b s curtIdx fuel with
    | .ret v => .inr v
    | .fuelOut => .inl none
    | .stop s' _ =>
      .inl (some { s' with os := setF s'.os (s'.osTop + 1) res,
                           osTop := s'.osTop + 1 })
  | _ =>
    .inl (some { s with os := setF s.os (s.osTop + 1) res,
                        osTop := s.osTop + 1 })

/-- Result of one iteration of the dispatch loop. -/
inductive Step where
  | cont (s : VMState) (ev : List Event)
  | halt (o : Outcome) (ev : List Event)

/-- Lift a `scPush` result into a `Step` with the given events. -/
def scStep (flagOf targetOf sfSize osSize : Int → Int) (res : Value)
    (curtIdx : Int) (s : VMState) (fuel : Nat) (ev : List Event) : Step :=
  match scPush flagOf targetOf sfSize osSize res curtIdx s fuel with
  | .inr v => .halt (.ok v) ev
  | .inl none => .halt .fuelOut ev
  | .inl (some s') => .cont s' ev

/-- Intermediate result of collecting the leaf parameters of a
`fastOperator` node. -/
inductive ParamsRes where
  | ok (ps : List Value)
  | fail (o : Outcome)

/-- Collect `cnt` leaf-child values starting at index `idx`, left to
right, stopping at the first failure (`return nil, err` in the source),
with the `ctx.Get` events of the children actually evaluated.  Both
variants' `fastOperator` branches have this shape (the separate arity-2
path in the sources only avoids an allocation and produces the same
values). -/
def leafParams (getv : Int → Outcome × List Event) :
    Nat → Int → ParamsRes × List Event
  | 0, _ => (.ok [], [])
  | n + 1, idx =>
    match getv idx with
    | (.ok v, ev) =>
      match leafParams getv n (idx + 1) with
      | (.ok ps, ev') => (.ok (v :: ps), ev ++ ev')
      | (.fail o, ev') => (.fail o, ev ++ ev')
    | (o, ev) => (.fail o, ev)

/-- The `cnt` operand-stack entries `os[base] .. os[base+cnt-1]`, the
parameters of an operator node's second visit. -/
def osParams (os : Int → Value) (base : Int) (cnt : Nat) : List Value :=
  (List.range cnt).map (fun k => os (base + k))

/-- Net effect of both variants' child-push loop for an operator node's
first visit (`sfTop += cnt; sf[sfTop-i] = childIdx+i`): the `cnt` entries
above `top` hold the children in reverse order, the leftmost child ending
on top. -/
def sfAfterChildren (sf : Int → Int) (top childIdx cnt : Int) : Int → Int :=
  fun j => if top < j ∧ j ≤ top + cnt then childIdx + (top + cnt - j) else sf j

/-! ### The boxed-record variant (`src/engine.go`) -/

/-- A compiled expression of the boxed variant (`Expr` in
`src/engine.go`): the node table and the auxiliary arrays used by `Eval`
(`parentIdx`, `sfSize`, `osSize`; the per-node short-circuit target lives
in the node records).  `nodesLen` is `len(e.nodes)`, used by the debug
branch; `maxStackSize` only controls stack preallocation. -/
structure BExpr where
  maxStackSize : Int
  nodes : Int → Node
  parentIdx : Int → Int
  sfSize : Int → Int
  osSize : Int → Int
  nodesLen : Int

/-- `getSelectorValue` of `src/engine.go`: assert that the node's value is
a string (a failed assertion is a runtime panic), call
`ctx.Get(n.selKey, n.value.(string))`, propagate an error unchanged, and
pass a non-canonical result through `unifyType`. -/
def getSelectorValue (ctx : Ctx) (n : Node) : Outcome × List Event :=
  match n.value with
  | .vstr name =>
    match ctx.get n.selKey name with
    | .error e => (.err e, [.getCall n.selKey name])
    | .ok res =>
      (.ok (if isCanonical res then res else unifyType res),
       [.getCall n.selKey name])
  | _ => (.panicked, [])

/-- `getNodeValue` of `src/engine.go`: a constant's stored value,
otherwise `getSelectorValue`. -/
def getNodeValue (ctx : Ctx) (n : Node) : Outcome × List Event :=
  if nodeType n.flag = constantT then (.ok n.value, [])
  else getSelectorValue ctx n

/-- One iteration of the dispatch loop of `Expr.Eval` in `src/engine.go`
(assuming a nonempty stack frame): pop the top node index and dispatch on
the node type, in the source's case order. -/
def stepB (e : BExpr) (ctx : Ctx) (fuel : Nat) (s : VMState) : Step :=
  let curtIdx := s.sf s.sfTop
  let s0 : VMState := { s with sfTop := s.sfTop - 1 }
  let curt := e.nodes curtIdx
  let flagOf := fun i => (e.nodes i).flag
  let targetOf := fun i => (e.nodes i).scIdx
  if nodeType curt.flag = fastOperatorT then
    match leafParams (fun i => getNodeValue ctx (e.nodes i))
        curt.childCnt.toNat curt.childIdx with
    | (.fail o, ev) => .halt o ev
    | (.ok ps, ev) =>
      match curt.op ctx ps with
      | .error er =>
        .halt (.err (.opExecV curt.value er)) (ev ++ [.opCall curtIdx])
      | .ok res =>
        scStep flagOf targetOf e.sfSize e.osSize res curtIdx s0 fuel
          (ev ++ [.opCall curtIdx])
  else if nodeType curt.flag = operatorT then
    if curtIdx > s0.maxIdx then
      -- first visit: push the node again, then its children in reverse
      .cont { s0 with
              maxIdx := curtIdx
              sf := sfAfterChildren (setF s0.sf (s0.sfTop + 1) curtIdx)
                      (s0.sfTop + 1) curt.childIdx curt.childCnt
              sfTop := s0.sfTop + 1 + curt.childCnt } []
    else
      -- second visit: consume the children's results
      let osTop' := s0.osTop - curt.childCnt
      let ps := osParams s0.os (osTop' + 1) curt.childCnt.toNat
      let s1 := { s0 with maxIdx := curtIdx, osTop := osTop' }
      match curt.op ctx ps with
      | .error er => .halt (.err (.opExecV curt.value er)) [.opCall curtIdx]
      | .ok res =>
        scStep flagOf targetOf e.sfSize e.osSize res curtIdx s1 fuel
          [.opCall curtIdx]
  else if nodeType curt.flag = selectorT then
    match getSelectorValue ctx curt with
    | (.ok res, ev) =>
      scStep flagOf targetOf e.sfSize e.osSize res curtIdx s0 fuel ev
    | (o, ev) => .halt o ev
  else if nodeType curt.flag = constantT then
    scStep flagOf targetOf e.sfSize e.osSize curt.value curtIdx s0 fuel []
  else if nodeType curt.flag = condT then
    let childIdx := curt.childIdx
    if curtIdx > s0.maxIdx then
      -- first visit: push the end node, the node itself, the predicate
      let t := s0.sfTop
      .cont { s0 with
              maxIdx := curtIdx
              sf := setF (setF (setF s0.sf (t + 1)
                      (childIdx + curt.childCnt - 1)) (t + 2) curtIdx)
                      (t + 3) childIdx
              sfTop := t + 3 } []
    else
      -- second visit: branch on the predicate's result
      let res := s0.os s0.osTop
      let s1 := { s0 with osTop := s0.osTop - 1 }
      match res with
      | .vbool true =>
        .cont { s1 with sf := setF s1.sf (s1.sfTop + 1) (childIdx + 1),
                        sfTop := s1.sfTop + 1 } []
      | .vbool false =>
        .cont { s1 with sf := setF s1.sf (s1.sfTop + 1) (childIdx + 2),
                        sfTop := s1.sfTop + 1 } []
      | _ => .halt (.err (.condNotBool res)) []
  else if nodeType curt.flag = endT then
    let res := s0.os s0.osTop
    let s1 := { s0 with maxIdx := e.parentIdx curtIdx, osTop := s0.osTop - 1 }
    scStep flagOf targetOf e.sfSize e.osSize res curtIdx s1 fuel []
  else
    -- debug (and any unknown type): normalize the frame below the top,
    -- push the real node, clear the diagnostic flag (printing dropped)
    let offset := e.nodesLen / 2
    let sf1 := fun j =>
      if 0 ≤ j ∧ j < s0.sfTop ∧ offset ≤ s0.sf j then s0.sf j - offset
      else s0.sf j
    .cont { s0 with sf := setF sf1 (s0.sfTop + 1) (curtIdx + offset),
                    sfTop := s0.sfTop + 1, scTriggered := false } []

/-- The dispatch loop of `Expr.Eval` in `src/engine.go`: while the stack
frame is nonempty, run one step; on exit return `os[0]`. -/
def runB (e : BExpr) (ctx : Ctx) : Nat → VMState → Outcome × List Event
  | 0, _ => (.fuelOut, [])
  | fuel + 1, s =>
    if s.sfTop = -1 then (.ok (s.os 0), [])
    else
      match stepB e ctx (fuel + 1) s with
      | .halt o ev => (o, ev)
      | .cont s' ev =>
        let r := runB e ctx fuel s'
        (r.1, ev ++ r.2)

/-- `Expr.Eval` of `src/engine.go`, with an event trace. -/
def evalB (e : BExpr) (ctx : Ctx) (fuel : Nat) : Outcome × List Event :=
  runB e ctx fuel initState

/-! ### The flat-bytecode variant (`src/unnamed/part_000`) -/

/-- A compiled expression of the flat variant (`Expr` in
`src/unnamed/part_000`): per-node data lives in a flat integer array
`bytecode` (four words per node: the flag word packing type, short-circuit
bits and `childCnt << 8`; the child index; the constant/operator table
index; the selector key), plus the `constants` and `operators` tables and
the auxiliary arrays.  `nodesLen` is `len(e.nodes)` of the extra-info node
records, used by the debug branch. -/
structure FExpr where
  maxStackSize : Int
  bytecode : Int → Int
  constants : Int → Value
  operators : Int → Operator
  scIdx : Int → Int
  sfSize : Int → Int
  osSize : Int → Int
  parentIdx : Int → Int
  nodesLen : Int

/-- `(e *Expr).getNodeValue` of `src/unnamed/part_000`: a constant's table
entry, otherwise `ctx.Get(SelectorKey(e.bytecode[i+3]), "")` — note the
empty name and the absence of `unifyType`. -/
def fgetNodeValue (f : FExpr) (ctx : Ctx) (i : Int) : Outcome × List Event :=
  let base := 4 * i
  if nodeType (f.bytecode base) = constantT then
    (.ok (f.constants (f.bytecode (base + 2))), [])
  else
    match ctx.get (f.bytecode (base + 3)) "" with
    | .error e => (.err e, [.getCall (f.bytecode (base + 3)) ""])
    | .ok v => (.ok v, [.getCall (f.bytecode (base + 3)) ""])

/-- One iteration of the dispatch loop of `Expr.Eval` in
`src/unnamed/part_000` (assuming a nonempty stack frame). -/
def stepF (f : FExpr) (ctx : Ctx) (fuel : Nat) (s : VMState) : Step :=
  let curt := s.sf s.sfTop
  let s0 : VMState := { s with sfTop := s.sfTop - 1 }
  let base := 4 * curt
  let w := f.bytecode base
  let flagOf := fun i => f.bytecode (4 * i)
  let targetOf := f.scIdx
  if nodeType w = fastOperatorT then
    let cnt := (w / 256).toNat
    let childIdx := f.bytecode (base + 1)
    match leafParams (fgetNodeValue f ctx) cnt childIdx with
    | (.fail o, ev) => .halt o ev
    | (.ok ps, ev) =>
      match f.operators (f.bytecode (base + 2)) ctx ps with
      | .error er => .halt (.err (.opExecI curt er)) (ev ++ [.opCall curt])
      | .ok res =>
        scStep flagOf targetOf f.sfSize f.osSize res curt s0 fuel
          (ev ++ [.opCall curt])
  else if nodeType w = operatorT then
    let cnt := w / 256
    if curt > s0.maxIdx then
      .cont { s0 with
              maxIdx := curt
              sf := sfAfterChildren (setF s0.sf (s0.sfTop + 1) curt)
                      (s0.sfTop + 1) (f.bytecode (base + 1)) cnt
              sfTop := s0.sfTop + 1 + cnt } []
    else
      let osTop' := s0.osTop - cnt
      let ps := osParams s0.os (osTop' + 1) cnt.toNat
      let s1 := { s0 with maxIdx := curt, osTop := osTop' }
      match f.operators (f.bytecode (base + 2)) ctx ps with
      | .error er => .halt (.err (.opExecI curt er)) [.opCall curt]
      | .ok res =>
        scStep flagOf targetOf f.sfSize f.osSize res curt s1 fuel
          [.opCall curt]
  else if nodeType w = selectorT then
    match ctx.get (f.bytecode (base + 3)) "" with
    | .error e => .halt (.err e) [.getCall (f.bytecode (base + 3)) ""]
    | .ok res =>
      scStep flagOf targetOf f.sfSize f.osSize res curt s0 fuel
        [.getCall (f.bytecode (base + 3)) ""]
  else if nodeType w = constantT then
    scStep flagOf targetOf f.sfSize f.osSize
      (f.constants (f.bytecode (base + 2))) curt s0 fuel []
  else if nodeType w = condT then
    let childIdx := f.bytecode (base + 1)
    if curt > s0.maxIdx then
      let cnt := w / 256
      let t := s0.sfTop
      .cont { s0 with
              maxIdx := curt
              sf := setF (setF (setF s0.sf (t + 1) (childIdx + cnt - 1))
                      (t + 2) curt) (t + 3) childIdx
              sfTop := t + 3 } []
    else
      let res := s0.os s0.osTop
      let s1 := { s0 with osTop := s0.osTop - 1 }
      match res with
      | .vbool true =>
        .cont { s1 with sf := setF s1.sf (s1.sfTop + 1) (childIdx + 1),
                        sfTop := s1.sfTop + 1 } []
      | .vbool false =>
        .cont { s1 with sf := setF s1.sf (s1.sfTop + 1) (childIdx + 2),
                        sfTop := s1.sfTop + 1 } []
      | _ => .halt (.err (.condNotBool res)) []
  else if nodeType w = endT then
    let res := s0.os s0.osTop
    let s1 := { s0 with maxIdx := f.parentIdx curt, osTop := s0.osTop - 1 }
    scStep flagOf targetOf f.sfSize f.osSize res curt s1 fuel []
  else
    let offset := f.nodesLen / 2
    let sf1 := fun j =>
      if 0 ≤ j ∧ j < s0.sfTop ∧ offset ≤ s0.sf j then s0.sf j - offset
      else s0.sf j
    .cont { s0 with sf := setF sf1 (s0.sfTop + 1) (curt + offset),
                    sfTop := s0.sfTop + 1, scTriggered := false } []

/-- The dispatch loop of `Expr.Eval` in `src/unnamed/part_000`. -/
def runF (f : FExpr) (ctx : Ctx) : Nat → VMState → Outcome × List Event
  | 0, _ => (.fuelOut, [])
  | fuel + 1, s =>
    if s.sfTop = -1 then (.ok (s.os 0), [])
    else
      match stepF f ctx (fuel + 1) s with
      | .halt o ev => (o, ev)
      | .cont s' ev =>
        let r := runF f ctx fuel s'
        (r.1, ev ++ r.2)

/-- `Expr.Eval` of `src/unnamed/part_000`, with an event trace. -/
def evalF (f : FExpr) (ctx : Ctx) (fuel : Nat) : Outcome × List Event :=
  runF f ctx fuel initState

/-! ### Translating a boxed program into the flat encoding -/

/-- Encode a boxed program in the flat bytecode: node `i` occupies words
`4i .. 4i+3` (flag word `flag + childCnt·256`, child index, table index,
selector key); node `i`'s value and operator are stored at table index
`i`; the auxiliary arrays are copied (the flat `scIdx` array holds the
boxed per-node `scIdx` fields). -/
def toFlat (e : BExpr) : FExpr :=
  { maxStackSize := e.maxStackSize
    bytecode := fun k =>
      let i := k / 4
      let n := e.nodes i
      if k % 4 = 0 then n.flag + n.childCnt * 256
      else if k % 4 = 1 then n.childIdx
      else if k % 4 = 2 then i
      else n.selKey
    constants := fun i => (e.nodes i).value
    operators := fun i => (e.nodes i).op
    scIdx := fun i => (e.nodes i).scIdx
    sfSize := e.sfSize
    osSize := e.osSize
    parentIdx := e.parentIdx
    nodesLen := e.nodesLen }

/-- Well-formedness of a boxed program, as produced by the compiler:
flag words are `uint8` values, child counts are non-negative, every
selector node stores its display name as a string value, and the children
of a `fastOperator` node are leaves (constants or selectors). -/
def BWF (e : BExpr) : Prop :=
  ∀ i : Int,
    (0 ≤ (e.nodes i).flag ∧ (e.nodes i).flag < 256 ∧
      0 ≤ (e.nodes i).childCnt) ∧
    (nodeType (e.nodes i).flag = selectorT →
      ∃ s : String, (e.nodes i).value = .vstr s) ∧
    (nodeType (e.nodes i).flag = fastOperatorT →
      ∀ k : Int, 0 ≤ k → k < (e.nodes i).childCnt →
        nodeType (e.nodes ((e.nodes i).childIdx + k)).flag = constantT ∨
        nodeType (e.nodes ((e.nodes i).childIdx + k)).flag = selectorT)

/-- Outcome equivalence for the two variants: identical except that
operator-failure errors identify the operator differently (the boxed
variant by the node's stored value, the flat variant by the node
index). -/
def errRel : GoErr → GoErr → Prop
  | .opExecV _ a, .opExecI _ b => errRel a b
  | .opExecI _ a, .opExecV _ b => errRel a b
  | .opExecV _ a, .opExecV _ b => errRel a b
  | .opExecI _ a, .opExecI _ b => errRel a b
  | a, b => a = b

/-- Relation between the outcomes of the two variants. -/
def outRel : Outcome → Outcome → Prop
  | .ok v, .ok w => v = w
  | .err a, .err b => errRel a b
  | .panicked, .panicked => True
  | .fuelOut, .fuelOut => True
  | _, _ => False

/-! ### Concrete programs and contexts used by the counterexamples -/

/-- An operator implementation that is never invoked in the concrete
programs below. -/
def dummyOp : Operator := fun _ _ => .ok .vnil

/-- A selector node with key `7` and display name `"x"`. -/
def selNode : Node :=
  { flag := selectorT, childCnt := 0, scIdx := 0, childIdx := 0,
    selKey := 7, value := .vstr "x", op := dummyOp }

/-- A boxed program consisting of the single selector node `selNode`
(every index holds the same node; only index `0` is ever dispatched). -/
def selExprB : BExpr :=
  { maxStackSize := 1, nodes := fun _ => selNode, parentIdx := fun _ => 0,
    sfSize := fun _ => 0, osSize := fun _ => 0, nodesLen := 1 }

/-- A context whose selector returns the non-canonical value `int(5)`
for every variable. -/
def ctxVint : Ctx := { get := fun _ _ => .ok (.vint 5), cancelled := false }

/-- A context whose selector returns the non-canonical value `int32(7)`. -/
def ctxVint32 : Ctx := { get := fun _ _ => .ok (.vint32 7), cancelled := false }

/-- A name-sensitive context: it echoes the name it is given. -/
def ctxEcho : Ctx := { get := fun _ name => .ok (.vstr name), cancelled := false }

/-- A context whose selector always fails with an external error. -/
def ctxErr : Ctx :=
  { get := fun _ _ => .error (.external "boom"), cancelled := false }

/-- A canonical, name-insensitive context (returns `int64(9)`). -/
def ctxCanon : Ctx := { get := fun _ _ => .ok (.vint64 9), cancelled := false }

/-- A constant node holding `int64(42)`. -/
def constNode42 : Node :=
  { flag := constantT, childCnt := 0, scIdx := 0, childIdx := 0,
    selKey := 0, value := .vint64 42, op := dummyOp }

/-- A boxed program consisting of the single constant `42`. -/
def constExprB : BExpr :=
  { maxStackSize := 1, nodes := fun _ => constNode42, parentIdx := fun _ => 0,
    sfSize := fun _ => 0, osSize := fun _ => 0, nodesLen := 1 }

/-- The root `and` node of the short-circuit programs: a binary operator
whose children are nodes `1` and `2`. -/
def andNode (op : Operator) : Node :=
  { flag := operatorT, childCnt := 2, scIdx := 0, childIdx := 1,
    selKey := 0, value := .vstr "and", op := op }

/-- The left child of the `and`: the constant `false` with the
short-circuit-if-false bit set and target `0` (the whole expression). -/
def falseScNode : Node :=
  { flag := constantT + 8, childCnt := 0, scIdx := 0, childIdx := 0,
    selKey := 0, value := .vbool false, op := dummyOp }

/-- The short-circuit family `false and <rest>`: node `0` is the `and`
operator (with an arbitrary implementation), node `1` the short-circuiting
constant `false`, and every node from index `2` on is drawn from the
arbitrary map `rest` — the elided right-hand sibling subtree. -/
def andFalseExpr (op : Operator) (rest : Int → Node)
    (parentIdx sfSize osSize : Int → Int) : BExpr :=
  { maxStackSize := 2
    nodes := fun i => if i = 0 then andNode op else if i = 1 then falseScNode
      else rest i
    parentIdx := parentIdx, sfSize := sfSize, osSize := osSize
    nodesLen := 3 }

/-- A selector node whose `value` field is not a string (the untyped `nil`
interface value), so that `getSelectorValue`'s type assertion panics. -/
def badSelNode : Node :=
  { flag := selectorT, childCnt := 0, scIdx := 0, childIdx := 0,
    selKey := 9, value := .vnil, op := dummyOp }

/-- `false and <bad selector>`: the bad selector sits in the elided
subtree at node `2`. -/
def andFalseBadSel : BExpr :=
  andFalseExpr dummyOp (fun _ => badSelNode) (fun _ => 0) (fun _ => 0)
    (fun _ => 0)

/-- A boxed program consisting of the single bad selector node. -/
def badSelExprB : BExpr :=
  { maxStackSize := 1, nodes := fun _ => badSelNode, parentIdx := fun _ => 0,
    sfSize := fun _ => 0, osSize := fun _ => 0, nodesLen := 1 }

/-- String test used by the C10 counterexample. -/
def isStrValue : Value → Bool
  | .vstr _ => true
  | _ => false

/-- A context with a trivial selector whose cancellation token is
triggered. -/
def ctxCancelled : Ctx :=
  { get := fun _ _ => .ok .vnil, cancelled := true }

/-- Does a `ctx.Get` event carry the empty display name?  (Operator
events count as `true`.) -/
def eventNameEmpty : Event → Bool
  | .getCall _ nm => nm = ""
  | .opCall _ => true

/-- The events of a step. -/
def stepEvents : Step → List Event
  | .cont _ ev => ev
  | .halt _ ev => ev

/-- Is a value a `bool`? -/
def isVBool : Value → Bool
  | .vbool _ => true
  | _ => false

/-- The outcome of a selector lookup on the boxed variant's path:
an error propagates unchanged, a non-canonical value is unified. -/
def selOut : Except GoErr Value → Outcome
  | .error e => .err e
  | .ok v => .ok (if isCanonical v then v else unifyType v)

/-- The `cond` root of the conditional family: `childIdx = 1`,
`childCnt = 4`.  Modelled from the spec: the compiler (out of scope of
`src/`) lays out the children of a conditional contiguously, with the
predicate first, then the two branches, and the matching `End` node at
`child_idx + child_count - 1` — the position the VM itself pushes on the
first visit. -/
def condNode : Node :=
  { flag := condT, childCnt := 4, scIdx := 0, childIdx := 1,
    selKey := 0, value := .vstr "if", op := dummyOp }

/-- A selector node with the given key and display name. -/
def selNodeK (k : Int) (nm : String) : Node :=
  { flag := selectorT, childCnt := 0, scIdx := 0, childIdx := 0,
    selKey := k, value := .vstr nm, op := dummyOp }

/-- The `End` node of the conditional family; its parent is the root. -/
def endNode0 : Node :=
  { flag := endT, childCnt := 0, scIdx := 0, childIdx := 0,
    selKey := 0, value := .vnil, op := dummyOp }

/-- The conditional family `if(p, t, e)` with selector predicate (key
`kP`, name `"p"`), selector branches (keys `kT`, `kE`, names `"t"`,
`"e"`), and the `End` node at index 4. -/
def ifExprB (kP kT kE : Int) : BExpr :=
  { maxStackSize := 2
    nodes := fun i =>
      if i = 0 then condNode
      else if i = 1 then selNodeK kP "p"
      else if i = 2 then selNodeK kT "t"
      else if i = 3 then selNodeK kE "e"
      else endNode0
    parentIdx := fun _ => 0
    sfSize := fun _ => 0
    osSize := fun _ => 0
    nodesLen := 5 }

/-- The state produced by one short-circuit rewind hop to target `6` with
rewind tables constantly `4` (`sfSize`) and `3` (`osSize`); used by the C4
witness. -/
def scStopState : VMState :=
  { initState with maxIdx := 6, sfTop := 2, osTop := 2, scTriggered := true }

/-- A context that resolves every variable to `true`. -/
def ctxTrue : Ctx := { get := fun _ _ => .ok (.vbool true), cancelled := false }

/-- A context that resolves every variable to the string `"hello"`. -/
def ctxHello : Ctx :=
  { get := fun _ _ => .ok (.vstr "hello"), cancelled := false }

/-- A mid-run state about to make the second visit to the `cond` root of
`ifExprB` with a `true` predicate result on the operand stack; used by the
C5 witness. -/
def condVisitState : VMState :=
  { sf := fun _ => 0, sfTop := 0, os := fun _ => .vbool true, osTop := 0,
    maxIdx := 5, scTriggered := false }

/-- Relation between one boxed step and one flat step: equal continuation
states, or related halting outcomes (event traces are not compared — the
two variants' traces differ in the display names). -/
def stepRel : Step → Step → Prop
  | .cont s₁ _, .cont s₂ _ => s₁ = s₂
  | .halt o₁ _, .halt o₂ _ => outRel o₁ o₂
  | _, _ => False

/-! ### Theorems -/

/-! #### C6: cancellation is never sampled -/

/-- Helper for C6: one boxed step is unchanged by the cancellation state,
provided the expression's operators themselves ignore it (the dispatch
loop reads the context only through `ctx.Get` and the operator calls). -/
theorem stepB_cancel_congr (e : BExpr)
    (g : SelectorKey → String → Except GoErr Value) (b₁ b₂ : Bool)
    (fuel : Nat) (s : VMState)
    (Hop : ∀ (i : Int) (p : List Value),
      (e.nodes i).op { get := g, cancelled := b₁ } p =
      (e.nodes i).op { get := g, cancelled := b₂ } p) :
    stepB e { get := g, cancelled := b₁ } fuel s =
    stepB e { get := g, cancelled := b₂ } fuel s := by
  have hnode : getNodeValue { get := g, cancelled := b₁ } =
      getNodeValue { get := g, cancelled := b₂ } := rfl
  have hsel : getSelectorValue { get := g, cancelled := b₁ } =
      getSelectorValue { get := g, cancelled := b₂ } := rfl
  simp only [stepB, hnode, hsel, Hop]

/-- **C6 counterexample.** The claim says that a cancelled token makes
`Eval` fail with a `Cancelled` error before dispatching the next node.
At the concrete input: the constant program `42` under a context whose
token is already cancelled, `Eval` succeeds normally — no branch of the
dispatch loop samples the token. -/
theorem eval_succeeds_despite_cancellation :
    evalB constExprB ctxCancelled 3 = (.ok (.vint64 42), []) ∧
      ctxCancelled.cancelled = true := by
  constructor
  · decide
  · rfl

/-- **C6 (amended).** The VM never samples the cancellation token: the
entire evaluation (result and trace) is independent of the token's state,
provided the expression's operators themselves ignore it (operators do
receive the context and could consult the token on their own).  In
particular a cancelled token never produces a `Cancelled` failure. -/
theorem runB_cancellation_not_sampled (e : BExpr)
    (g : SelectorKey → String → Except GoErr Value) (b₁ b₂ : Bool)
    (Hop : ∀ (i : Int) (p : List Value),
      (e.nodes i).op { get := g, cancelled := b₁ } p =
      (e.nodes i).op { get := g, cancelled := b₂ } p) :
    ∀ (fuel : Nat) (s : VMState),
      runB e { get := g, cancelled := b₁ } fuel s =
      runB e { get := g, cancelled := b₂ } fuel s := by
  intro fuel
  induction fuel with
  | zero => intro s; rfl
  | succ n ih =>
    intro s
    unfold runB
    by_cases h : s.sfTop = -1
    · simp [h]
    · simp only [if_neg h]
      rw [stepB_cancel_congr e g b₁ b₂ (n + 1) s Hop]
      cases hst : stepB e { get := g, cancelled := b₂ } (n + 1) s with
      | halt o ev => rfl
      | cont s' ev => simp only [ih s']

/-- C6 amended witness: the theorem applied to the constant program with
a trivial operator table, at both token states. -/
theorem runB_cancellation_not_sampled_witness :
    runB constExprB { get := fun _ _ => .ok .vnil, cancelled := true } 3
        initState =
      runB constExprB { get := fun _ _ => .ok .vnil, cancelled := false } 3
        initState :=
  runB_cancellation_not_sampled constExprB (fun _ _ => .ok .vnil) true false
    (fun _ _ => rfl) 3 initState

/-! #### C7: selector errors are propagated unwrapped -/

/-- **C7 counterexample.** The claim says a failed variable lookup makes
`Eval` fail with a `SelectorFailure` error wrapping the underlying context
error.  At the concrete input — the single-selector program under a
context failing with `external "boom"` — `Eval` returns the context's
error itself, and that error wraps nothing (`errors.Unwrap` would yield
nothing): no wrapper is ever added on the selector path. -/
theorem selector_error_not_wrapped :
    evalB selExprB ctxErr 3 = (.err (.external "boom"), [.getCall 7 "x"]) ∧
      errInner (.external "boom") = none := by
  constructor
  · decide
  · rfl

/-- **C7 (amended).** Whenever `ctx.Get` fails for a dispatched selector
node, `Eval` fails immediately — no further node is dispatched, whatever
fuel remains — and the returned error is the context's error itself,
propagated unchanged rather than wrapped (by contrast, operator errors are
wrapped by `fmt.Errorf(..., %w, ...)`). -/
theorem selector_error_propagates_unwrapped (e : BExpr) (ctx : Ctx)
    (fuel : Nat) (s : VMState) (e₀ : GoErr) (nm : String)
    (hne : s.sfTop ≠ -1)
    (hty : nodeType (e.nodes (s.sf s.sfTop)).flag = selectorT)
    (hv : (e.nodes (s.sf s.sfTop)).value = .vstr nm)
    (hget : ctx.get (e.nodes (s.sf s.sfTop)).selKey nm = .error e₀) :
    runB e ctx (fuel + 1) s =
      (.err e₀, [.getCall (e.nodes (s.sf s.sfTop)).selKey nm]) := by
  unfold runB
  rw [if_neg hne]
  have hstep : stepB e ctx (fuel + 1) s =
      .halt (.err e₀) [.getCall (e.nodes (s.sf s.sfTop)).selKey nm] := by
    simp only [stepB, hty]
    norm_num [selectorT, fastOperatorT, operatorT]
    simp only [getSelectorValue, hv, hget]
  rw [hstep]

/-- C7 amended witness: the theorem applied to the single-selector
program and the failing context. -/
theorem selector_error_propagates_unwrapped_witness :
    runB selExprB ctxErr 5 initState =
      (.err (.external "boom"), [.getCall 7 "x"]) :=
  selector_error_propagates_unwrapped selExprB ctxErr 4 initState
    (.external "boom") "x" (by decide) rfl rfl rfl

/-! #### C10: non-string selector values panic, but only when reached -/

/-- **C10 counterexample.** The claim says every expression containing a
selector node with a non-string `value` field fails to complete normally.
Concrete refutation: `false and <bad selector>` contains such a node (node
`2`, a selector whose value is the untyped nil), yet short-circuiting
elides it and evaluation completes normally with `false`. -/
theorem bad_selector_in_elided_subtree_completes :
    nodeType (andFalseBadSel.nodes 2).flag = selectorT ∧
      isStrValue (andFalseBadSel.nodes 2).value = false ∧
      evalB andFalseBadSel ctxVint 4 = (.ok (.vbool false), []) := by
  refine ⟨rfl, rfl, by decide⟩

/-- **C10 (amended).** The assertion `n.value.(string)` is unconditional
on the evaluated path: whenever the VM actually dispatches a selector node
whose `value` field is not a string — or consumes such a node inline as a
non-constant `fastOperator` leaf child — evaluation panics rather than
returning an error, for every context.  (An expression merely containing
such a node can still complete normally when the node sits in an elided
subtree, as the counterexample shows.) -/
theorem selector_nonstring_value_panics :
    (∀ (e : BExpr) (ctx : Ctx) (fuel : Nat) (s : VMState),
      s.sfTop ≠ -1 →
      nodeType (e.nodes (s.sf s.sfTop)).flag = selectorT →
      isStrValue (e.nodes (s.sf s.sfTop)).value = false →
      runB e ctx (fuel + 1) s = (.panicked, [])) ∧
    (∀ (ctx : Ctx) (n : Node),
      nodeType n.flag ≠ constantT →
      isStrValue n.value = false →
      getNodeValue ctx n = (.panicked, [])) := by
  constructor
  · intro e ctx fuel s hne hty hval
    unfold runB
    rw [if_neg hne]
    have hstep : stepB e ctx (fuel + 1) s = .halt .panicked [] := by
      simp only [stepB, hty]
      norm_num [selectorT, fastOperatorT, operatorT]
      cases hv : (e.nodes (s.sf s.sfTop)).value <;>
        simp_all [getSelectorValue, isStrValue]
    rw [hstep]
  · intro ctx n hty hval
    unfold getNodeValue
    rw [if_neg hty]
    cases hv : n.value <;> simp_all [getSelectorValue, isStrValue]

/-- C10 amended witness: the theorem applied to the program consisting of
the bad selector alone (which is dispatched at once and panics). -/
theorem selector_nonstring_value_panics_witness :
    runB badSelExprB ctxVint 2 initState = (.panicked, []) ∧
      getNodeValue ctxVint badSelNode = (.panicked, []) :=
  ⟨selector_nonstring_value_panics.1 badSelExprB ctxVint 1 initState
      (by decide) rfl rfl,
   selector_nonstring_value_panics.2 ctxVint badSelNode (by decide) rfl⟩

/-! #### C2: what the two variants pass to `ctx.Get`, and unification -/

/-- Helper for C2: the events of a flat-variant leaf-child lookup all
carry the empty display name. -/
theorem fgetNodeValue_name_empty (f : FExpr) (ctx : Ctx) (i : Int) :
    ((fgetNodeValue f ctx i).2).all eventNameEmpty = true := by
  unfold fgetNodeValue
  by_cases h : nodeType (f.bytecode (4 * i)) = constantT
  · simp [h]
  · simp only [if_neg h]
    cases hg : ctx.get (f.bytecode (4 * i + 3)) "" <;>
      simp [eventNameEmpty]

/-- Helper for C2: the events of a flat-variant `fastOperator` parameter
collection all carry the empty display name. -/
theorem leafParams_fget_name_empty (f : FExpr) (ctx : Ctx) :
    ∀ (n : Nat) (idx : Int),
      ((leafParams (fgetNodeValue f ctx) n idx).2).all eventNameEmpty
        = true := by
  intro n
  induction n with
  | zero => intro idx; rfl
  | succ m ih =>
    intro idx
    unfold leafParams
    cases hg : fgetNodeValue f ctx idx with
    | mk o ev =>
      have hev : ev.all eventNameEmpty = true := by
        have := fgetNodeValue_name_empty f ctx idx
        rw [hg] at this
        exact this
      cases o with
      | ok v =>
        cases hr : leafParams (fgetNodeValue f ctx) m (idx + 1) with
        | mk pr ev' =>
          have hev' : ev'.all eventNameEmpty = true := by
            have := ih (idx + 1)
            rw [hr] at this
            exact this
          cases pr <;> simp [List.all_append, hev, hev']
      | err e => simp [hev]
      | panicked => simp [hev]
      | fuelOut => simp [hev]

/-- The short-circuit-and-push step returns exactly the events it is
given. -/
theorem stepEvents_scStep (flagOf targetOf sfS osS : Int → Int) (res : Value)
    (i : Int) (s : VMState) (fuel : Nat) (ev : List Event) :
    stepEvents (scStep flagOf targetOf sfS osS res i s fuel ev) = ev := by
  unfold scStep
  cases scPush flagOf targetOf sfS osS res i s fuel with
  | inr v => rfl
  | inl o => cases o <;> rfl

/-- Helper for C2: every event emitted by one flat-variant step carries
the empty display name. -/
theorem stepF_name_empty (f : FExpr) (ctx : Ctx) (fuel : Nat) (s : VMState) :
    (stepEvents (stepF f ctx fuel s)).all eventNameEmpty = true := by
  have hlp := leafParams_fget_name_empty f ctx
    ((f.bytecode (4 * s.sf s.sfTop) / 256).toNat)
    (f.bytecode (4 * s.sf s.sfTop + 1))
  simp only [stepF]
  by_cases h1 : nodeType (f.bytecode (4 * s.sf s.sfTop)) = fastOperatorT
  · rw [if_pos h1]
    rcases hq : leafParams (fgetNodeValue f ctx)
        ((f.bytecode (4 * s.sf s.sfTop) / 256).toNat)
        (f.bytecode (4 * s.sf s.sfTop + 1)) with ⟨pr, ev⟩
    rw [hq] at hlp
    cases pr with
    | fail o => simp [hq, stepEvents, hlp]
    | ok ps =>
      simp only [hq]
      cases hop : f.operators (f.bytecode (4 * s.sf s.sfTop + 2)) ctx ps with
      | error er => simp [stepEvents, List.all_append, eventNameEmpty, hlp]
      | ok res =>
        rw [stepEvents_scStep]
        simp [List.all_append, eventNameEmpty, hlp]
  · rw [if_neg h1]
    by_cases h2 : nodeType (f.bytecode (4 * s.sf s.sfTop)) = operatorT
    · rw [if_pos h2]
      by_cases hv : s.maxIdx < s.sf s.sfTop
      · rw [if_pos hv]
        simp [stepEvents]
      · rw [if_neg hv]
        cases hop : f.operators (f.bytecode (4 * s.sf s.sfTop + 2)) ctx
            (osParams s.os (s.osTop - f.bytecode (4 * s.sf s.sfTop) / 256 + 1)
              ((f.bytecode (4 * s.sf s.sfTop) / 256).toNat)) with
        | error er => simp [stepEvents, eventNameEmpty]
        | ok res =>
          rw [stepEvents_scStep]
          simp [eventNameEmpty]
    · rw [if_neg h2]
      by_cases h3 : nodeType (f.bytecode (4 * s.sf s.sfTop)) = selectorT
      · rw [if_pos h3]
        cases hget : ctx.get (f.bytecode (4 * s.sf s.sfTop + 3)) "" with
        | error e => simp [stepEvents, eventNameEmpty]
        | ok res =>
          rw [stepEvents_scStep]
          simp [eventNameEmpty]
      · rw [if_neg h3]
        by_cases h4 : nodeType (f.bytecode (4 * s.sf s.sfTop)) = constantT
        · rw [if_pos h4, stepEvents_scStep]
          simp
        · rw [if_neg h4]
          by_cases h5 : nodeType (f.bytecode (4 * s.sf s.sfTop)) = condT
          · rw [if_pos h5]
            by_cases hv : s.maxIdx < s.sf s.sfTop
            · rw [if_pos hv]
              simp [stepEvents]
            · rw [if_neg hv]
              cases hres : s.os s.osTop
              all_goals try simp [stepEvents]
              next b => cases b <;> simp [stepEvents]
          · rw [if_neg h5]
            by_cases h6 : nodeType (f.bytecode (4 * s.sf s.sfTop)) = endT
            · rw [if_pos h6, stepEvents_scStep]
              simp
            · rw [if_neg h6]
              simp [stepEvents]

/-- C9 helper: `unifyType` is the identity on every canonical kind. -/
theorem unifyType_canonical (v : Value) (h : isCanonical v = true) :
    unifyType v = v := by
  cases v <;> simp_all [isCanonical, unifyType]

/-- **C9.** The type unifier is idempotent on every value, and is the
identity on values already of a canonical kind (`bool`, `string`, `int64`,
`[]int64`, `[]string`). -/
theorem unifyType_idempotent_and_canonical_id (v : Value) :
    unifyType (unifyType v) = unifyType v ∧
      (isCanonical v = true → unifyType v = v) := by
  refine ⟨?_, fun h => unifyType_canonical v h⟩
  cases v <;> simp [unifyType, isCanonical]

/-- C9 witness: the theorem applied at the canonical value `vbool true`. -/
theorem unifyType_idempotent_and_canonical_id_witness :
    unifyType (unifyType (Value.vbool true)) = unifyType (Value.vbool true) ∧
      unifyType (Value.vbool true) = Value.vbool true :=
  ⟨(unifyType_idempotent_and_canonical_id (Value.vbool true)).1,
   (unifyType_idempotent_and_canonical_id (Value.vbool true)).2 rfl⟩

/-- **C8 counterexample.** The claim says every integer conversion to
`int64` preserves the numeric value exactly.  It fails at the concrete
input `uint64(2^63)`: Go's `int64(v)` reinterprets the bits, producing
`-2^63`, not `2^63`. -/
theorem unifyType_uint64_not_lossless :
    unifyType (Value.vuint64 (2 ^ 63)) = Value.vint64 (-(2 ^ 63)) ∧
      unifyType (Value.vuint64 (2 ^ 63)) ≠ Value.vint64 (2 ^ 63) := by
  constructor
  · show Value.vint64 (uint64ToInt64 (2 ^ 63)) = Value.vint64 (-(2 ^ 63))
    rw [uint64ToInt64]
    norm_num
  · intro h
    rw [unifyType] at h
    have : uint64ToInt64 (2 ^ 63) = 2 ^ 63 := by injection h
    rw [uint64ToInt64] at this
    norm_num at this

/-- **C8 (amended).** The unifier is lossless on every conversion it
performs except two: `uint64 → int64`, which reinterprets values `≥ 2^63`
modulo `2^64` into the signed range, and `duration → seconds` /
`time → Unix seconds`, which truncate (toward zero, resp. dropping the
sub-second offset).  All other integer conversions, and the elementwise
widening of `[]int`, preserve the value exactly. -/
theorem unifyType_lossless_amended :
    (∀ x : Int, unifyType (Value.vint x) = Value.vint64 x) ∧
    (∀ x : Int, unifyType (Value.vint32 x) = Value.vint64 x) ∧
    (∀ x : Int, unifyType (Value.vint16 x) = Value.vint64 x) ∧
    (∀ x : Int, unifyType (Value.vint8 x) = Value.vint64 x) ∧
    (∀ n : Nat, unifyType (Value.vuint32 n) = Value.vint64 (n : Int)) ∧
    (∀ n : Nat, unifyType (Value.vuint16 n) = Value.vint64 (n : Int)) ∧
    (∀ n : Nat, unifyType (Value.vuint8 n) = Value.vint64 (n : Int)) ∧
    (∀ xs : List Int, unifyType (Value.vints xs) = Value.vint64s xs) ∧
    (∀ n : Nat, n < 2 ^ 63 →
      unifyType (Value.vuint64 n) = Value.vint64 (n : Int)) ∧
    (∀ n : Nat, 2 ^ 63 ≤ n →
      unifyType (Value.vuint64 n) = Value.vint64 ((n : Int) - 2 ^ 64)) ∧
    (∀ d : Int, 0 ≤ d →
      unifyType (Value.vdur d) = Value.vint64 (d / durSecond)) ∧
    (∀ d : Int, d < 0 →
      unifyType (Value.vdur d) = Value.vint64 (-((-d) / durSecond))) ∧
    (∀ sec nsec : Int, unifyType (Value.vtime sec nsec) = Value.vint64 sec) := by
  refine ⟨fun x => rfl, fun x => rfl, fun x => rfl, fun x => rfl,
    fun n => rfl, fun n => rfl, fun n => rfl,
    fun xs => by simp [unifyType], ?_, ?_, ?_, ?_, fun sec nsec => rfl⟩
  · intro n hn
    show Value.vint64 (uint64ToInt64 n) = Value.vint64 (n : Int)
    rw [uint64ToInt64, if_pos hn]
  · intro n hn
    show Value.vint64 (uint64ToInt64 n) = Value.vint64 ((n : Int) - 2 ^ 64)
    rw [uint64ToInt64, if_neg (by omega)]
  · intro d hd
    show Value.vint64 (Int.tdiv d durSecond) = Value.vint64 (d / durSecond)
    rw [Int.tdiv_eq_ediv hd (by norm_num [durSecond])]
  · intro d hd
    show Value.vint64 (Int.tdiv d durSecond) = Value.vint64 (-((-d) / durSecond))
    have h1 : Int.tdiv d durSecond = -(Int.tdiv (-d) durSecond) := by
      rw [← Int.neg_tdiv, neg_neg]
    rw [h1, Int.tdiv_eq_ediv (by omega) (by norm_num [durSecond])]

/-- C8 amended witness: the amended theorem applied at concrete inputs of
each hypothesis-guarded clause. -/
theorem unifyType_lossless_amended_witness :
    unifyType (Value.vuint64 5) = Value.vint64 5 ∧
    unifyType (Value.vuint64 (2 ^ 64 - 1)) = Value.vint64 (-1) ∧
    unifyType (Value.vdur 2500000000) = Value.vint64 2 ∧
    unifyType (Value.vdur (-2500000000)) = Value.vint64 (-2) := by
  refine ⟨unifyType_lossless_amended.2.2.2.2.2.2.2.2.1 5 (by norm_num), ?_, ?_, ?_⟩
  · have h := unifyType_lossless_amended.2.2.2.2.2.2.2.2.2.1 (2 ^ 64 - 1)
      (by norm_num)
    rw [h]; norm_num
  · have h := unifyType_lossless_amended.2.2.2.2.2.2.2.2.2.2.1 2500000000
      (by norm_num)
    rw [h]; rfl
  · have h := unifyType_lossless_amended.2.2.2.2.2.2.2.2.2.2.2.1 (-2500000000)
      (by norm_num)
    rw [h]; rfl

/-- Helper for C2: every `ctx.Get` event of an entire flat-variant run
carries the empty display name. -/
theorem runF_name_empty (f : FExpr) (ctx : Ctx) :
    ∀ (fuel : Nat) (s : VMState),
      ((runF f ctx fuel s).2).all eventNameEmpty = true := by
  intro fuel
  induction fuel with
  | zero => intro s; rfl
  | succ n ih =>
    intro s
    unfold runF
    by_cases h : s.sfTop = -1
    · simp [h]
    · simp only [if_neg h]
      have hstep := stepF_name_empty f ctx (n + 1) s
      cases hst : stepF f ctx (n + 1) s with
      | halt o ev =>
        rw [hst] at hstep
        simpa [stepEvents] using hstep
      | cont s' ev =>
        rw [hst] at hstep
        simp only [stepEvents] at hstep
        simp [List.all_append, hstep, ih s']

/-- **C2 (amended).** The two variants differ here.  (i) The boxed
variant's `getSelectorValue` calls `ctx.Get` with both the integer key and
the node's display name, and passes every non-canonical result through
`unifyType` before use.  (ii) The flat variant's selector dispatch calls
`ctx.Get` with the key and the empty string as the name, and pushes the
returned value unmodified, canonical or not.  (iii) Indeed no `ctx.Get`
call of any flat-variant run ever carries a nonempty name. -/
theorem selector_get_call_shape :
    (∀ (ctx : Ctx) (n : Node) (nm : String), n.value = .vstr nm →
      getSelectorValue ctx n =
        (match ctx.get n.selKey nm with
         | .error e => (.err e, [.getCall n.selKey nm])
         | .ok v =>
           (.ok (if isCanonical v then v else unifyType v),
            [.getCall n.selKey nm]))) ∧
    (∀ (f : FExpr) (ctx : Ctx) (fuel : Nat) (s : VMState) (v : Value),
      nodeType (f.bytecode (4 * s.sf s.sfTop)) = selectorT →
      ctx.get (f.bytecode (4 * s.sf s.sfTop + 3)) "" = .ok v →
      stepF f ctx fuel s =
        scStep (fun i => f.bytecode (4 * i)) f.scIdx f.sfSize f.osSize v
          (s.sf s.sfTop) { s with sfTop := s.sfTop - 1 } fuel
          [.getCall (f.bytecode (4 * s.sf s.sfTop + 3)) ""]) ∧
    (∀ (f : FExpr) (ctx : Ctx) (fuel : Nat) (s : VMState),
      ((runF f ctx fuel s).2).all eventNameEmpty = true) := by
  refine ⟨?_, ?_, fun f ctx fuel s => runF_name_empty f ctx fuel s⟩
  · intro ctx n nm hv
    simp only [getSelectorValue, hv]
  · intro f ctx fuel s v hty hget
    simp only [stepF]
    rw [if_neg (by rw [hty]; decide), if_neg (by rw [hty]; decide),
      if_pos hty, hget]

/-- C2 amended witness: the three clauses applied to the single-selector
program. -/
theorem selector_get_call_shape_witness :
    (getSelectorValue ctxVint selNode =
      (match ctxVint.get selNode.selKey "x" with
       | .error e => (.err e, [.getCall selNode.selKey "x"])
       | .ok v => (.ok (if isCanonical v then v else unifyType v),
                   [.getCall selNode.selKey "x"]))) ∧
    ((runF (toFlat selExprB) ctxVint32 3 initState).2).all eventNameEmpty
        = true ∧
    stepF (toFlat selExprB) ctxVint32 3 initState =
      scStep (fun i => (toFlat selExprB).bytecode (4 * i))
        (toFlat selExprB).scIdx (toFlat selExprB).sfSize
        (toFlat selExprB).osSize (.vint32 7)
        (initState.sf initState.sfTop)
        { initState with sfTop := initState.sfTop - 1 } 3
        [.getCall ((toFlat selExprB).bytecode
            (4 * initState.sf initState.sfTop + 3)) ""] :=
  ⟨selector_get_call_shape.1 ctxVint selNode "x" rfl,
   selector_get_call_shape.2.2 (toFlat selExprB) ctxVint32 3 initState,
   selector_get_call_shape.2.1 (toFlat selExprB) ctxVint32 3 initState
     (.vint32 7) (by decide) rfl⟩

/-- **C2 counterexample.** The claim — for both variants — says the VM
supplies both the key and the display name to `ctx.Get` and unifies every
non-canonical return before use.  Concrete refutation on the flat variant:
the single-selector program, whose display name is `"x"`, evaluated under
a context returning `int32(7)`, calls `ctx.Get` with the empty name and
returns the non-canonical `int32(7)` itself (unification never ran). -/
theorem flat_selector_skips_name_and_unify :
    evalF (toFlat selExprB) ctxVint32 3 =
        (.ok (.vint32 7), [.getCall 7 ""]) ∧
      isCanonical (.vint32 7) = false ∧
      selNode.value = .vstr "x" :=
  ⟨by decide, rfl, rfl⟩

/-! #### C3: short-circuit laziness -/

/-- **C3.** When the short-circuit flags fire with target `0`, the VM
returns at once and nothing of the elided sibling subtree runs: for the
family `false and <rest>` — with an arbitrary implementation of the `and`
operator, an arbitrary elided right-hand subtree `rest`, arbitrary
auxiliary tables, any context, and any remaining fuel — both variants
return `false` with an empty event trace, so no operator of the sibling
subtree is ever invoked and no selector in it is ever queried (indeed not
even the `and` operator itself runs).  This is the claim's scenario
`false and expensive()`: `expensive` is never invoked. -/
theorem short_circuit_elides_sibling_subtree (op : Operator)
    (rest : Int → Node) (parentIdx sfSize osSize : Int → Int) (ctx : Ctx)
    (fuel : Nat) :
    runB (andFalseExpr op rest parentIdx sfSize osSize) ctx (fuel + 2)
        initState = (.ok (.vbool false), []) ∧
    runF (toFlat (andFalseExpr op rest parentIdx sfSize osSize)) ctx
        (fuel + 2) initState = (.ok (.vbool false), []) :=
  ⟨rfl, rfl⟩

/-! #### C4: rewind coherence of the short-circuit loop -/

/-- **C4.** The short-circuit loop shared by both variants (instantiated
with the boxed node-field accessors resp. the flat bytecode accessors):
(i) if the flags of node `i` fire and its target is `0`, the loop returns
the boolean result as the whole expression's value; (ii) whenever the
loop exits at a node `j` after the flags of the starting node fired, the
exit state has `max_idx = j`, stack-frame depth `sfTop + 1 = sf_size[j] -
1` and operand-stack depth `osTop + 1 = os_size[j]`, the flags of `j` do
not fire on the same result (the test was repeated at each hop and the
chain stopped), and the diagnostic flag is set. -/
theorem sc_rewind_coherence :
    (∀ (flagOf targetOf sfS osS : Int → Int) (b : Bool) (s : VMState)
        (i : Int) (fuel : Nat),
      scFires (flagOf i) b = true → targetOf i = 0 →
      scResolve flagOf targetOf sfS osS b s i (fuel + 1) =
        .ret (.vbool b)) ∧
    (∀ (flagOf targetOf sfS osS : Int → Int) (b : Bool) (fuel : Nat)
        (s : VMState) (i : Int) (s' : VMState) (j : Int),
      scResolve flagOf targetOf sfS osS b s i fuel = .stop s' j →
      scFires (flagOf i) b = true →
      s'.maxIdx = j ∧ s'.sfTop + 1 = sfS j - 1 ∧ s'.osTop + 1 = osS j ∧
        scFires (flagOf j) b = false ∧ s'.scTriggered = true) := by
  constructor
  · intro flagOf targetOf sfS osS b s i fuel hf ht
    simp [scResolve, hf, ht]
  · intro flagOf targetOf sfS osS b fuel
    induction fuel with
    | zero =>
      intro s i s' j h hf
      simp [scResolve] at h
    | succ n ih =>
      intro s i s' j h hf
      rw [scResolve, if_pos hf] at h
      by_cases ht : targetOf i = 0
      · rw [if_pos ht] at h
        cases h
      · rw [if_neg ht] at h
        by_cases hf2 : scFires (flagOf (targetOf i)) b = true
        · exact ih _ _ _ _ h hf2
        · cases n with
          | zero => simp [scResolve] at h
          | succ m =>
            rw [scResolve, if_neg hf2] at h
            cases h
            refine ⟨rfl, ?_, ?_, Bool.not_eq_true _ |>.mp hf2, rfl⟩
            · show sfS (targetOf i) - 2 + 1 = sfS (targetOf i) - 1
              omega
            · show osS (targetOf i) - 1 + 1 = osS (targetOf i)
              omega

/-- C4 witness: clause (i) at a node whose flags fire on `false` with
target `0`; clause (ii) at a two-hop chain (node `5` fires toward node
`6`, which does not fire) with rewind tables constantly `4` and `3`. -/
theorem sc_rewind_coherence_witness :
    scResolve (fun _ => 9) (fun _ => 0) (fun _ => 4) (fun _ => 3) false
        initState 1 1 = .ret (.vbool false) ∧
      (scStopState.maxIdx = 6 ∧ scStopState.sfTop + 1 = 4 - 1 ∧
        scStopState.osTop + 1 = 3 ∧
        scFires ((fun j => if j = (5 : Int) then 9 else 1) 6) false = false ∧
        scStopState.scTriggered = true) :=
  ⟨sc_rewind_coherence.1 (fun _ => 9) (fun _ => 0) (fun _ => 4) (fun _ => 3)
      false initState 1 0 rfl rfl,
   sc_rewind_coherence.2 (fun j => if j = (5 : Int) then 9 else 1)
      (fun j => if j = (5 : Int) then 6 else 0) (fun _ => 4) (fun _ => 3)
      false 2 initState 5 scStopState 6 rfl rfl⟩

/-! #### C5: conditional dispatch -/

set_option maxHeartbeats 3200000 in
/-- **C5.** (i) For the conditional family `if(p, t, e)` with selector
predicate and branches: the predicate is queried first; if it yields
`true` the then-selector alone is queried, if `false` the else-selector
alone — the unselected branch's selector is never queried and no operator
runs — and the branch value (unified if non-canonical) is the result.
(ii) If the predicate's result is not a `bool`, evaluation fails with the
type-mismatch error.  (iii) At the dispatch level, for every boxed
expression: a second visit to a `cond` node pops the predicate result and
pushes `child_idx + 1` on `true` and `child_idx + 2` on `false`
(`child_idx + 2` being the position the spec designates for the `End`
node), and fails with the type-mismatch error on a non-`bool`. -/
theorem cond_dispatch :
    (∀ (ctx : Ctx) (kP kT kE : Int) (b : Bool) (fuel : Nat),
      ctx.get kP "p" = .ok (.vbool b) →
      runB (ifExprB kP kT kE) ctx (fuel + 6) initState =
        (selOut (ctx.get (if b then kT else kE) (if b then "t" else "e")),
         [.getCall kP "p",
          .getCall (if b then kT else kE) (if b then "t" else "e")])) ∧
    (∀ (ctx : Ctx) (kP kT kE : Int) (p : Value) (fuel : Nat),
      ctx.get kP "p" = .ok p → isCanonical p = true → isVBool p = false →
      runB (ifExprB kP kT kE) ctx (fuel + 3) initState =
        (.err (.condNotBool p), [.getCall kP "p"])) ∧
    (∀ (e : BExpr) (ctx : Ctx) (fuel : Nat) (s : VMState),
      nodeType ((e.nodes (s.sf s.sfTop)).flag) = condT →
      ¬ s.maxIdx < s.sf s.sfTop →
      (s.os s.osTop = .vbool true →
        stepB e ctx fuel s = .cont
          { s with
            sf := (setF s.sf s.sfTop ((e.nodes (s.sf s.sfTop)).childIdx + 1)),
            osTop := s.osTop - 1 } []) ∧
      (s.os s.osTop = .vbool false →
        stepB e ctx fuel s = .cont
          { s with
            sf := (setF s.sf s.sfTop ((e.nodes (s.sf s.sfTop)).childIdx + 2)),
            osTop := s.osTop - 1 } []) ∧
      (isVBool (s.os s.osTop) = false →
        stepB e ctx fuel s =
          .halt (.err (.condNotBool (s.os s.osTop))) [])) := by
  refine ⟨?_, ?_, ?_⟩
  · intro ctx kP kT kE b fuel hP
    cases b
    · cases hc : ctx.get kE "e" with
      | error er =>
        simp [runB, stepB, ifExprB, condNode, selNodeK, endNode0, initState,
          setF, scStep, scPush, scResolve, scFires, nodeType,
          getSelectorValue, selOut, isCanonical, unifyType, hP, hc,
          constantT, selectorT, operatorT, fastOperatorT, condT, endT]
      | ok v =>
        cases v <;>
          simp [runB, stepB, ifExprB, condNode, selNodeK, endNode0,
            initState, setF, scStep, scPush, scResolve, scFires, nodeType,
            getSelectorValue, selOut, isCanonical, unifyType, hP, hc,
            constantT, selectorT, operatorT, fastOperatorT, condT, endT]
    · cases hc : ctx.get kT "t" with
      | error er =>
        simp [runB, stepB, ifExprB, condNode, selNodeK, endNode0, initState,
          setF, scStep, scPush, scResolve, scFires, nodeType,
          getSelectorValue, selOut, isCanonical, unifyType, hP, hc,
          constantT, selectorT, operatorT, fastOperatorT, condT, endT]
      | ok v =>
        cases v <;>
          simp [runB, stepB, ifExprB, condNode, selNodeK, endNode0,
            initState, setF, scStep, scPush, scResolve, scFires, nodeType,
            getSelectorValue, selOut, isCanonical, unifyType, hP, hc,
            constantT, selectorT, operatorT, fastOperatorT, condT, endT]
  · intro ctx kP kT kE p fuel hP hcan hnb
    have hres : (if isCanonical p then p else unifyType p) = p := by
      rw [if_pos hcan]
    cases p <;> simp_all [runB, stepB, ifExprB, condNode, selNodeK, endNode0,
      initState, setF, scStep, scPush, scResolve, scFires, nodeType,
      getSelectorValue, isVBool, isCanonical, constantT, selectorT,
      operatorT, fastOperatorT, condT, endT]
  · intro e ctx fuel s hty hvisit
    refine ⟨?_, ?_, ?_⟩
    · intro hres
      simp only [stepB]
      rw [if_neg (by rw [hty]; decide), if_neg (by rw [hty]; decide),
        if_neg (by rw [hty]; decide), if_neg (by rw [hty]; decide),
        if_pos hty, if_neg hvisit, hres]
      simp [sub_add_cancel]
    · intro hres
      simp only [stepB]
      rw [if_neg (by rw [hty]; decide), if_neg (by rw [hty]; decide),
        if_neg (by rw [hty]; decide), if_neg (by rw [hty]; decide),
        if_pos hty, if_neg hvisit, hres]
      simp [sub_add_cancel]
    · intro hres
      simp only [stepB]
      rw [if_neg (by rw [hty]; decide), if_neg (by rw [hty]; decide),
        if_neg (by rw [hty]; decide), if_neg (by rw [hty]; decide),
        if_pos hty, if_neg hvisit]
      cases hv : s.os s.osTop <;> simp_all [isVBool]

/-- C5 witness: clause (i) with a context resolving every variable to
`true`; clause (ii) with a context resolving every variable to `"hello"`
(the spec's scenario `if(x, 1, 0)` with `x = "hello"`); clause (iii) at a
concrete second-visit state. -/
theorem cond_dispatch_witness :
    runB (ifExprB 1 2 3) ctxTrue 6 initState =
        (selOut (ctxTrue.get 2 "t"), [.getCall 1 "p", .getCall 2 "t"]) ∧
      runB (ifExprB 1 2 3) ctxHello 3 initState =
        (.err (.condNotBool (.vstr "hello")), [.getCall 1 "p"]) ∧
      stepB (ifExprB 1 2 3) ctxTrue 1 condVisitState = .cont
        { condVisitState with
          sf := (setF condVisitState.sf condVisitState.sfTop
            (((ifExprB 1 2 3).nodes
              (condVisitState.sf condVisitState.sfTop)).childIdx + 1)),
          osTop := condVisitState.osTop - 1 } [] :=
  ⟨cond_dispatch.1 ctxTrue 1 2 3 true 0 rfl,
   cond_dispatch.2.1 ctxHello 1 2 3 (.vstr "hello") 0 rfl rfl rfl,
   (cond_dispatch.2.2 (ifExprB 1 2 3) ctxTrue 1 condVisitState rfl
      (by decide)).1 rfl⟩

/-! #### C1: the two variants are not observationally equal -/

/-- **C1 counterexample.** The two engines do not return equal results on
a common program: under a context returning the non-canonical `int(5)`,
the boxed variant unifies (`int64(5)`) while the flat variant does not
(`int(5)`); under a name-sensitive context the boxed variant passes the
display name `"x"` while the flat variant passes `""`. -/
theorem variants_results_differ :
    (evalB selExprB ctxVint 3).1 = .ok (.vint64 5) ∧
      (evalF (toFlat selExprB) ctxVint 3).1 = .ok (.vint 5) ∧
      (evalB selExprB ctxVint 3).1 ≠ (evalF (toFlat selExprB) ctxVint 3).1 ∧
      (evalB selExprB ctxEcho 3).1 = .ok (.vstr "x") ∧
      (evalF (toFlat selExprB) ctxEcho 3).1 = .ok (.vstr "") :=
  ⟨by decide, by decide, by decide, by decide, by decide⟩

/-- `errRel` is reflexive. -/
theorem errRel_refl : ∀ a : GoErr, errRel a a
  | .external _ => rfl
  | .opExecV _ inner => errRel_refl inner
  | .opExecI _ inner => errRel_refl inner
  | .condNotBool _ => rfl
  | .invalidResultType _ => rfl

/-- `outRel` is reflexive. -/
theorem outRel_refl : ∀ o : Outcome, outRel o o
  | .ok _ => rfl
  | .err e => errRel_refl e
  | .panicked => trivial
  | .fuelOut => trivial

/-- Two continuations with the same state are related. -/
theorem stepRel_cont (s' : VMState) (ev₁ ev₂ : List Event) :
    stepRel (.cont s' ev₁) (.cont s' ev₂) :=
  show s' = s' from rfl

/-- Two halts with related outcomes are related. -/
theorem stepRel_halt (o₁ o₂ : Outcome) (ev₁ ev₂ : List Event)
    (h : outRel o₁ o₂) : stepRel (.halt o₁ ev₁) (.halt o₂ ev₂) :=
  show outRel o₁ o₂ from h

/-- Related errors give related error outcomes. -/
theorem outRel_err (a b : GoErr) (h : errRel a b) :
    outRel (.err a) (.err b) :=
  show errRel a b from h

/-- The two operator-failure wrappers around related inner errors are
related, whatever identifiers they embed. -/
theorem errRel_opVI (n : Value) (m : Int) (a b : GoErr) (h : errRel a b) :
    errRel (.opExecV n a) (.opExecI m b) :=
  show errRel a b from h

/-- Decoding the four bytecode words of node `i` in a translated
program. -/
theorem toFlat_bytecode (e : BExpr) (i : Int) :
    (toFlat e).bytecode (4 * i) =
        (e.nodes i).flag + (e.nodes i).childCnt * 256 ∧
      (toFlat e).bytecode (4 * i + 1) = (e.nodes i).childIdx ∧
      (toFlat e).bytecode (4 * i + 2) = i ∧
      (toFlat e).bytecode (4 * i + 3) = (e.nodes i).selKey := by
  refine ⟨?_, ?_, ?_, ?_⟩
  · simp only [toFlat]
    rw [show (4 * i) % 4 = 0 from by omega,
      show (4 * i) / 4 = i from by omega]
    norm_num
  · simp only [toFlat]
    rw [show (4 * i + 1) % 4 = 1 from by omega,
      show (4 * i + 1) / 4 = i from by omega]
    norm_num
  · simp only [toFlat]
    rw [show (4 * i + 2) % 4 = 2 from by omega,
      show (4 * i + 2) / 4 = i from by omega]
    norm_num
  · simp only [toFlat]
    rw [show (4 * i + 3) % 4 = 3 from by omega,
      show (4 * i + 3) / 4 = i from by omega]
    norm_num

/-- A flag word packs the node type of its flag byte. -/
theorem nodeType_flagWord (flag cnt : Int) :
    nodeType (flag + cnt * 256) = nodeType flag := by
  unfold nodeType
  omega

/-- A flag word fires the short-circuit test exactly as its flag byte
does. -/
theorem scFires_flagWord (flag cnt : Int) (b : Bool) :
    scFires (flag + cnt * 256) b = scFires flag b := by
  unfold scFires
  rw [show (flag + cnt * 256) / 8 % 2 = flag / 8 % 2 from by omega,
    show (flag + cnt * 256) / 16 % 2 = flag / 16 % 2 from by omega]

/-- The short-circuit loop only looks at the flags through `scFires` and
at the targets pointwise. -/
theorem scResolve_congr (f₁ f₂ t₁ t₂ sfS osS : Int → Int)
    (hf : ∀ (j : Int) (b : Bool), scFires (f₁ j) b = scFires (f₂ j) b)
    (ht : ∀ j : Int, t₁ j = t₂ j) (b : Bool) :
    ∀ (fuel : Nat) (s : VMState) (i : Int),
      scResolve f₁ t₁ sfS osS b s i fuel =
        scResolve f₂ t₂ sfS osS b s i fuel := by
  intro fuel
  induction fuel with
  | zero => intro s i; rfl
  | succ n ih =>
    intro s i
    rw [scResolve, scResolve, hf, ht]
    by_cases hfi : scFires (f₂ i) b
    · rw [if_pos hfi, if_pos hfi]
      by_cases hti : t₂ i = 0
      · rw [if_pos hti, if_pos hti]
      · rw [if_neg hti, if_neg hti]
        exact ih _ _
    · rw [if_neg hfi, if_neg hfi]

/-- Two short-circuit-and-push steps over congruent flag/target accessors
and the same result and state are `stepRel`-related (their event lists may
differ). -/
theorem scStep_rel (f₁ f₂ t₁ t₂ sfS osS : Int → Int) (res : Value)
    (i : Int) (s : VMState) (fuel : Nat) (ev₁ ev₂ : List Event)
    (hf : ∀ (j : Int) (b : Bool), scFires (f₁ j) b = scFires (f₂ j) b)
    (ht : ∀ j : Int, t₁ j = t₂ j) :
    stepRel (scStep f₁ t₁ sfS osS res i s fuel ev₁)
      (scStep f₂ t₂ sfS osS res i s fuel ev₂) := by
  cases res
  all_goals try exact rfl
  next b =>
    simp only [scStep, scPush]
    rw [scResolve_congr f₁ f₂ t₁ t₂ sfS osS hf ht b fuel s i]
    cases scResolve f₂ t₂ sfS osS b s i fuel with
    | ret v => exact show outRel (Outcome.ok v) (Outcome.ok v) from outRel_refl _
    | stop s' j => exact rfl
    | fuelOut => exact show True from trivial

/-- Under the equivalence hypotheses, a boxed leaf-child lookup and the
corresponding flat leaf-child lookup produce the same outcome. -/
theorem getNodeValue_fst_eq (e : BExpr) (ctx : Ctx)
    (Hname : ∀ (k : Int) (nm : String), ctx.get k nm = ctx.get k "")
    (Hcanon : ∀ (k : Int) (nm : String) (v : Value),
      ctx.get k nm = .ok v → isCanonical v = true)
    (j : Int)
    (hj : nodeType (e.nodes j).flag = constantT ∨
      (nodeType (e.nodes j).flag = selectorT ∧
        ∃ nm, (e.nodes j).value = .vstr nm)) :
    (getNodeValue ctx (e.nodes j)).1 = (fgetNodeValue (toFlat e) ctx j).1 := by
  obtain ⟨hw, hc1, hc2, hc3⟩ := toFlat_bytecode e j
  have hnt : nodeType ((toFlat e).bytecode (4 * j)) =
      nodeType (e.nodes j).flag := by
    rw [hw]; exact nodeType_flagWord _ _
  have hconst : (toFlat e).constants j = (e.nodes j).value := rfl
  rcases hj with hcst | ⟨hsel, nm, hnm⟩
  · unfold getNodeValue fgetNodeValue
    rw [if_pos hcst, if_pos (hnt.trans hcst), hc2, hconst]
  · have hnc : ¬ nodeType (e.nodes j).flag = constantT := by
      rw [hsel]; decide
    have hnc' : ¬ nodeType ((toFlat e).bytecode (4 * j)) = constantT := by
      rw [hnt, hsel]; decide
    unfold getNodeValue fgetNodeValue
    rw [if_neg hnc, if_neg hnc', hc3]
    cases hg : ctx.get (e.nodes j).selKey "" with
    | error er =>
      have hb : (getSelectorValue ctx (e.nodes j)).1 = .err er := by
        simp [getSelectorValue, hnm, Hname (e.nodes j).selKey nm, hg]
      rw [hb]
    | ok v =>
      have hcan := Hcanon (e.nodes j).selKey "" v hg
      have hb : (getSelectorValue ctx (e.nodes j)).1 = .ok v := by
        simp [getSelectorValue, hnm, Hname (e.nodes j).selKey nm, hg, hcan]
      rw [hb]

/-- `leafParams` computes the same intermediate result from two getters
whose outcomes agree on the children visited. -/
theorem leafParams_fst_congr (getv₁ getv₂ : Int → Outcome × List Event) :
    ∀ (n : Nat) (idx : Int),
      (∀ k : Nat, k < n → (getv₁ (idx + (k : Int))).1 =
        (getv₂ (idx + (k : Int))).1) →
      (leafParams getv₁ n idx).1 = (leafParams getv₂ n idx).1 := by
  intro n
  induction n with
  | zero => intro idx h; rfl
  | succ m ih =>
    intro idx h
    have h0 : (getv₁ idx).1 = (getv₂ idx).1 := by
      have := h 0 (Nat.succ_pos m)
      simpa using this
    unfold leafParams
    cases hg1 : getv₁ idx with
    | mk o₁ ev₁ =>
    cases hg2 : getv₂ idx with
    | mk o₂ ev₂ =>
    have ho : o₁ = o₂ := by
      rw [hg1, hg2] at h0
      exact h0
    subst ho
    have hrec : (leafParams getv₁ m (idx + 1)).1 =
        (leafParams getv₂ m (idx + 1)).1 := by
      apply ih
      intro k hk
      have hx := h (k + 1) (Nat.succ_lt_succ hk)
      have hcast : idx + ((k + 1 : Nat) : Int) = idx + 1 + (k : Int) := by
        push_cast
        ring
      rw [hcast] at hx
      exact hx
    cases o₁ with
    | ok v =>
      cases hr1 : leafParams getv₁ m (idx + 1) with
      | mk p1 e1 =>
      cases hr2 : leafParams getv₂ m (idx + 1) with
      | mk p2 e2 =>
      have hp : p1 = p2 := by
        rw [hr1, hr2] at hrec
        exact hrec
      subst hp
      cases p1 <;> rfl
    | err er => rfl
    | panicked => rfl
    | fuelOut => rfl

/-- Under the equivalence hypotheses — the context resolves by key alone,
returns only canonical values, and the program is well formed — one boxed
step and one flat step from the same state are related: equal
continuation states, or related outcomes. -/
theorem stepBF_rel (e : BExpr) (ctx : Ctx) (HW : BWF e)
    (Hname : ∀ (k : Int) (nm : String), ctx.get k nm = ctx.get k "")
    (Hcanon : ∀ (k : Int) (nm : String) (v : Value),
      ctx.get k nm = .ok v → isCanonical v = true)
    (fuel : Nat) (s : VMState) :
    stepRel (stepB e ctx fuel s) (stepF (toFlat e) ctx fuel s) := by
  obtain ⟨hw, hc1, hc2, hc3⟩ := toFlat_bytecode e (s.sf s.sfTop)
  obtain ⟨⟨hfl0, hfl256, hcnt0⟩, hselstr, hfast⟩ := HW (s.sf s.sfTop)
  have hnt : nodeType ((toFlat e).bytecode (4 * s.sf s.sfTop)) =
      nodeType (e.nodes (s.sf s.sfTop)).flag := by
    rw [hw]
    exact nodeType_flagWord _ _
  have hcv : (toFlat e).bytecode (4 * s.sf s.sfTop) / 256 =
      (e.nodes (s.sf s.sfTop)).childCnt := by
    rw [hw]
    omega
  have hfires : ∀ (j : Int) (b : Bool),
      scFires ((e.nodes j).flag) b =
        scFires ((toFlat e).bytecode (4 * j)) b := by
    intro j b
    rw [(toFlat_bytecode e j).1, scFires_flagWord]
  have htarg : ∀ j : Int, (e.nodes j).scIdx = (toFlat e).scIdx j :=
    fun _ => rfl
  have hsfS : (toFlat e).sfSize = e.sfSize := rfl
  have hosS : (toFlat e).osSize = e.osSize := rfl
  have hops : (toFlat e).operators (s.sf s.sfTop) =
      (e.nodes (s.sf s.sfTop)).op := rfl
  have hconstv : (toFlat e).constants (s.sf s.sfTop) =
      (e.nodes (s.sf s.sfTop)).value := rfl
  have hparv : (toFlat e).parentIdx (s.sf s.sfTop) =
      e.parentIdx (s.sf s.sfTop) := rfl
  have hlen : (toFlat e).nodesLen = e.nodesLen := rfl
  simp only [stepB, stepF, hnt, hcv, hc1, hc2, hc3, hsfS, hosS, hops,
    hconstv, hparv, hlen]
  by_cases h1 : nodeType (e.nodes (s.sf s.sfTop)).flag = fastOperatorT
  · rw [if_pos h1, if_pos h1]
    have hchild : ∀ k : Nat, k < (e.nodes (s.sf s.sfTop)).childCnt.toNat →
        (getNodeValue ctx
          (e.nodes ((e.nodes (s.sf s.sfTop)).childIdx + (k : Int)))).1 =
        (fgetNodeValue (toFlat e) ctx
          ((e.nodes (s.sf s.sfTop)).childIdx + (k : Int))).1 := by
      intro k hk
      apply getNodeValue_fst_eq e ctx Hname Hcanon
      have hk0 : (0 : Int) ≤ (k : Int) := by omega
      have hk' : (k : Int) < (e.nodes (s.sf s.sfTop)).childCnt := by omega
      rcases hfast h1 (k : Int) hk0 hk' with hcst | hsel2
      · exact Or.inl hcst
      · exact Or.inr ⟨hsel2, (HW _).2.1 hsel2⟩
    have hleaf := leafParams_fst_congr
      (fun j => getNodeValue ctx (e.nodes j)) (fgetNodeValue (toFlat e) ctx)
      (e.nodes (s.sf s.sfTop)).childCnt.toNat
      (e.nodes (s.sf s.sfTop)).childIdx hchild
    cases hr1 : leafParams (fun j => getNodeValue ctx (e.nodes j))
        (e.nodes (s.sf s.sfTop)).childCnt.toNat
        (e.nodes (s.sf s.sfTop)).childIdx with
    | mk p1 e1 =>
    cases hr2 : leafParams (fgetNodeValue (toFlat e) ctx)
        (e.nodes (s.sf s.sfTop)).childCnt.toNat
        (e.nodes (s.sf s.sfTop)).childIdx with
    | mk p2 e2 =>
    have hp : p1 = p2 := by
      rw [hr1, hr2] at hleaf
      exact hleaf
    subst hp
    cases p1 with
    | fail o => exact stepRel_halt _ _ _ _ (outRel_refl o)
    | ok ps =>
      simp only []
      cases hop : (e.nodes (s.sf s.sfTop)).op ctx ps with
      | error er =>
        exact stepRel_halt _ _ _ _
          (outRel_err _ _ (errRel_opVI _ _ _ _ (errRel_refl er)))
      | ok res => exact scStep_rel _ _ _ _ _ _ _ _ _ _ _ _ hfires htarg
  · rw [if_neg h1, if_neg h1]
    by_cases h2 : nodeType (e.nodes (s.sf s.sfTop)).flag = operatorT
    · rw [if_pos h2, if_pos h2]
      by_cases hv : s.maxIdx < s.sf s.sfTop
      · rw [if_pos hv, if_pos hv]
        exact stepRel_cont _ _ _
      · rw [if_neg hv, if_neg hv]
        cases hop : (e.nodes (s.sf s.sfTop)).op ctx
            (osParams s.os
              (s.osTop - (e.nodes (s.sf s.sfTop)).childCnt + 1)
              (e.nodes (s.sf s.sfTop)).childCnt.toNat) with
        | error er =>
          exact stepRel_halt _ _ _ _
            (outRel_err _ _ (errRel_opVI _ _ _ _ (errRel_refl er)))
        | ok res => exact scStep_rel _ _ _ _ _ _ _ _ _ _ _ _ hfires htarg
    · rw [if_neg h2, if_neg h2]
      by_cases h3 : nodeType (e.nodes (s.sf s.sfTop)).flag = selectorT
      · rw [if_pos h3, if_pos h3]
        obtain ⟨nm, hnm⟩ := hselstr h3
        cases hg : ctx.get (e.nodes (s.sf s.sfTop)).selKey "" with
        | error er =>
          have hbox : getSelectorValue ctx (e.nodes (s.sf s.sfTop)) =
              (.err er, [.getCall (e.nodes (s.sf s.sfTop)).selKey nm]) := by
            simp [getSelectorValue, hnm,
              Hname (e.nodes (s.sf s.sfTop)).selKey nm, hg]
          rw [hbox]
          exact stepRel_halt _ _ _ _ (outRel_err _ _ (errRel_refl er))
        | ok v =>
          have hcan := Hcanon (e.nodes (s.sf s.sfTop)).selKey "" v hg
          have hbox : getSelectorValue ctx (e.nodes (s.sf s.sfTop)) =
              (.ok v, [.getCall (e.nodes (s.sf s.sfTop)).selKey nm]) := by
            simp [getSelectorValue, hnm,
              Hname (e.nodes (s.sf s.sfTop)).selKey nm, hg, hcan]
          rw [hbox]
          exact scStep_rel _ _ _ _ _ _ _ _ _ _ _ _ hfires htarg
      · rw [if_neg h3, if_neg h3]
        by_cases h4 : nodeType (e.nodes (s.sf s.sfTop)).flag = constantT
        · rw [if_pos h4, if_pos h4]
          exact scStep_rel _ _ _ _ _ _ _ _ _ _ _ _ hfires htarg
        · rw [if_neg h4, if_neg h4]
          by_cases h5 : nodeType (e.nodes (s.sf s.sfTop)).flag = condT
          · rw [if_pos h5, if_pos h5]
            by_cases hv : s.maxIdx < s.sf s.sfTop
            · try simp only [if_pos hv]
              exact stepRel_cont _ _ _
            · try simp only [if_neg hv]
              cases hres : s.os s.osTop
              all_goals
                try exact stepRel_halt _ _ _ _ (outRel_err _ _ (errRel_refl _))
              next b => cases b <;> exact stepRel_cont _ _ _
          · rw [if_neg h5, if_neg h5]
            by_cases h6 : nodeType (e.nodes (s.sf s.sfTop)).flag = endT
            · rw [if_pos h6, if_pos h6]
              exact scStep_rel _ _ _ _ _ _ _ _ _ _ _ _ hfires htarg
            · rw [if_neg h6, if_neg h6]
              exact stepRel_cont _ _ _

/-- **C1 (amended).** The boxed-record engine and the flat-bytecode
engine are observationally equivalent on every translated program,
provided: the program is well formed (`BWF`), the context resolves by key
alone (the boxed variant passes the display name, the flat variant the
empty string), and the context returns only canonical values (the boxed
variant unifies non-canonical selector results, the flat variant does
not).  Results are equal up to the operator identifier embedded in
operator-failure errors (`outRel`): the boxed variant names the operator
by the node's stored value, the flat variant by the node index. -/
theorem variants_equivalent_amended (e : BExpr) (ctx : Ctx) (HW : BWF e)
    (Hname : ∀ (k : Int) (nm : String), ctx.get k nm = ctx.get k "")
    (Hcanon : ∀ (k : Int) (nm : String) (v : Value),
      ctx.get k nm = .ok v → isCanonical v = true) :
    ∀ (fuel : Nat) (s : VMState),
      outRel (runB e ctx fuel s).1 (runF (toFlat e) ctx fuel s).1 := by
  intro fuel
  induction fuel with
  | zero => intro s; exact trivial
  | succ n ih =>
    intro s
    simp only [runB, runF]
    by_cases h : s.sfTop = -1
    · simp only [if_pos h]
      exact rfl
    · simp only [if_neg h]
      have hrel := stepBF_rel e ctx HW Hname Hcanon (n + 1) s
      cases hb : stepB e ctx (n + 1) s with
      | halt o ev =>
        cases hf : stepF (toFlat e) ctx (n + 1) s with
        | halt o' ev' =>
          rw [hb, hf] at hrel
          exact hrel
        | cont s'' ev' =>
          rw [hb, hf] at hrel
          exact absurd hrel (by simp [stepRel])
      | cont s' ev =>
        cases hf : stepF (toFlat e) ctx (n + 1) s with
        | halt o' ev' =>
          rw [hb, hf] at hrel
          exact absurd hrel (by simp [stepRel])
        | cont s'' ev' =>
          rw [hb, hf] at hrel
          have hss : s' = s'' := hrel
          subst hss
          simpa using ih s'

/-- C1 amended witness: the equivalence applied to the single-selector
program under the canonical, name-insensitive context `ctxCanon`. -/
theorem variants_equivalent_amended_witness :
    outRel (runB selExprB ctxCanon 3 initState).1
      (runF (toFlat selExprB) ctxCanon 3 initState).1 :=
  variants_equivalent_amended selExprB ctxCanon
    (by
      intro i
      refine ⟨⟨?_, ?_, ?_⟩, fun _ => ⟨"x", rfl⟩, fun h => ?_⟩
      · norm_num [selExprB, selNode, selectorT]
      · norm_num [selExprB, selNode, selectorT]
      · norm_num [selExprB, selNode]
      · norm_num [selExprB, selNode, nodeType, selectorT, fastOperatorT]
          at h)
    (fun _ _ => rfl)
    (fun k nm v h => by
      cases h
      rfl)
    3 initState

end EvalSpec
